import Mathlib

/-!
Verification of the stock-purchasing optimizer core:
`prepare_data_for_optimization` (src/utils/preprocessing.py),
`create_optimization_model` and `solve_model` (src/models/optimizer.py),
shallowly embedded over rational numerics, with Python dictionaries
modelled as association lists that keep first-insertion key order.
-/

namespace StockPurchasing

/-- Python `dict` lookup `l[k]`, as an association-list search returning the
first binding of `k` (keys in our dicts are unique, see the lemmas below). -/
def dlookup {K V : Type} [DecidableEq K] : List (K × V) → K → Option V
  | [], _ => none
  | (k2, v) :: t, k => if k2 = k then some v else dlookup t k

/-- Lookup with a default, used where the Python code would raise `KeyError`
on a missing key; `allLookupsOk` below records exactly the lookups performed. -/
def dlookupD {K V : Type} [DecidableEq K] (l : List (K × V)) (k : K) (d : V) : V :=
  (dlookup l k).getD d

/-- Python `dict` assignment `l[k] = v`: overwrite in place if the key is
present (keeping its position), otherwise append at the end. -/
def dictInsert {K V : Type} [DecidableEq K] : List (K × V) → K → V → List (K × V)
  | [], k, v => [(k, v)]
  | (k2, v2) :: t, k, v =>
      if k2 = k then (k2, v) :: t else (k2, v2) :: dictInsert t k v

/-- Keep-first-occurrence insertion: append unless already present (the key
behaviour of both `pandas.Series.unique` and Python dict key insertion). -/
def pyInsertUnique {α : Type} [DecidableEq α] (acc : List α) (a : α) : List α :=
  if a ∈ acc then acc else acc ++ [a]

/-- `pandas.Series.unique`: distinct values in order of first occurrence. -/
def uniqueList {α : Type} [DecidableEq α] (l : List α) : List α :=
  l.foldl pyInsertUnique []

/- ## Data model (normalised structure produced by preprocessing) -/

/-- One entry of `data['items']` as built by `prepare_data_for_optimization`. -/
structure ItemData where
  name : String
  current_stock : ℚ
  min_stock : ℚ
  max_stock : ℚ
  expiry_days : ℚ
  average_daily_sale : ℚ
  expected_demand : ℚ
  units_per_pallet : ℚ
deriving DecidableEq

/-- One entry of `data['suppliers']`. -/
structure SupplierData where
  name : String
  min_pallets : ℚ
  max_pallets : ℚ
  lead_time : ℚ
deriving DecidableEq

/-- The four-mapping interchange structure handed to the model builder. -/
structure OptData where
  items : List (Nat × ItemData)
  suppliers : List (Nat × SupplierData)
  available_suppliers : List (Nat × List Nat)
  costs : List (Nat × List (Nat × ℚ))
deriving DecidableEq

/- ## Input tables (rows of the three CSVs) -/

structure ItemRow where
  ItemID : Nat
  Name : String
  CurrentStock : ℚ
  MinStock : ℚ
  MaxStock : ℚ
  ExpiryDays : ℚ
  AverageDailySale : ℚ
deriving DecidableEq

structure SupplierRow where
  SupplierID : Nat
  Name : String
  MinPallets : ℚ
  MaxPallets : ℚ
  LeadTime : ℚ
deriving DecidableEq

structure PricingRow where
  SupplierID : Nat
  ItemID : Nat
  CostPerPallet : ℚ
deriving DecidableEq

/-- `calculate_expected_demand` from src/utils/preprocessing.py. -/
def calculate_expected_demand (item_row : ItemRow) (days_to_consider : ℚ) : ℚ :=
  item_row.AverageDailySale * days_to_consider

/-- `prepare_data_for_optimization` from src/utils/preprocessing.py. -/
def prepare_data_for_optimization (items_df : List ItemRow)
    (suppliers_df : List SupplierRow) (pricing_df : List PricingRow) : OptData :=
  let items := items_df.foldl (fun acc item =>
    dictInsert acc item.ItemID
      { name := item.Name
        current_stock := item.CurrentStock
        min_stock := item.MinStock
        max_stock := item.MaxStock
        expiry_days := item.ExpiryDays
        average_daily_sale := item.AverageDailySale
        expected_demand := calculate_expected_demand item item.ExpiryDays
        units_per_pallet := 24 }) []
  let suppliers := suppliers_df.foldl (fun acc s =>
    dictInsert acc s.SupplierID
      { name := s.Name
        min_pallets := s.MinPallets
        max_pallets := s.MaxPallets
        lead_time := s.LeadTime }) []
  let available_suppliers := (items.map Prod.fst).foldl (fun acc item_id =>
    let item_pricing := pricing_df.filter (fun r => r.ItemID = item_id)
    dictInsert acc item_id (uniqueList (item_pricing.map PricingRow.SupplierID))) []
  let costs := (items.map Prod.fst).foldl (fun acc item_id =>
    let item_pricing := pricing_df.filter (fun r => r.ItemID = item_id)
    dictInsert acc item_id
      (item_pricing.foldl (fun c r => dictInsert c r.SupplierID r.CostPerPallet) [])) []
  { items := items, suppliers := suppliers,
    available_suppliers := available_suppliers, costs := costs }

/- ## The abstract LP problem built by `create_optimization_model` -/

inductive LpSense where
  | Minimize
  | Maximize
deriving DecidableEq

/-- A linear constraint `Σ coeff·x + lhsConst (≤ | ≥) rhs`; every constraint
the builder emits has this shape. -/
structure LinConstraint where
  terms : List ((Nat × Nat) × ℚ)
  lhsConst : ℚ
  isLe : Bool
  rhs : ℚ
deriving DecidableEq

/-- The pulp problem: a name, a sense, a linear objective (list of
variable/coefficient pairs) and named constraints in insertion order. -/
structure LpProblem where
  pname : String
  sense : LpSense
  objective : List ((Nat × Nat) × ℚ)
  constraints : List (String × LinConstraint)
deriving DecidableEq

/-- Default used where the Python code would raise `KeyError` looking up a
supplier; tracked by `allLookupsOk`. -/
def defaultSupplier : SupplierData := ⟨"", 0, 0, 0⟩

/-- Default used where the Python code would raise `KeyError` looking up an
item; tracked by `allLookupsOk`. -/
def defaultItem : ItemData := ⟨"", 0, 0, 0, 0, 0, 0, 0⟩

/-- `create_optimization_model` from src/models/optimizer.py: variables,
objective, stock constraints, supplier constraints, lead-time/expiry
constraints, in source order. Returns the problem and the key list of the
variable dictionary `x`. -/
def create_optimization_model (data : OptData) : LpProblem × List (Nat × Nat) :=
  let x := data.items.foldl (fun acc p =>
    let item_id := p.1
    (dlookupD data.available_suppliers item_id []).foldl (fun acc2 supplier_id =>
      pyInsertUnique acc2 (item_id, supplier_id)) acc) []
  let objective := (data.items.map (fun p =>
    let item_id := p.1
    (dlookupD data.available_suppliers item_id []).map (fun supplier_id =>
      ((item_id, supplier_id), dlookupD (dlookupD data.costs item_id []) supplier_id 0)))).flatten
  let stock_constraints := (data.items.map (fun p =>
    let item_id := p.1
    let item_data := p.2
    let avail := dlookupD data.available_suppliers item_id []
    [ (s!"Min_Stock_{item_id}",
       { terms := avail.map (fun supplier_id =>
           ((item_id, supplier_id), item_data.units_per_pallet))
         lhsConst := item_data.current_stock
         isLe := false
         rhs := item_data.min_stock : LinConstraint }),
      (s!"Max_Stock_{item_id}",
       { terms := avail.map (fun supplier_id =>
           ((item_id, supplier_id), item_data.units_per_pallet))
         lhsConst := item_data.current_stock
         isLe := true
         rhs := item_data.max_stock : LinConstraint }) ])).flatten
  let supplier_constraints := (data.suppliers.map (fun q =>
    let supplier_id := q.1
    let supplier_data := q.2
    let items_for_supplier := (data.items.map Prod.fst).filter
      (fun item_id => supplier_id ∈ dlookupD data.available_suppliers item_id [])
    if items_for_supplier.isEmpty then ([] : List (String × LinConstraint)) else
      [ (s!"Min_Pallets_{supplier_id}",
         { terms := items_for_supplier.map (fun item_id => ((item_id, supplier_id), (1 : ℚ)))
           lhsConst := 0
           isLe := false
           rhs := supplier_data.min_pallets : LinConstraint }),
        (s!"Max_Pallets_{supplier_id}",
         { terms := items_for_supplier.map (fun item_id => ((item_id, supplier_id), (1 : ℚ)))
           lhsConst := 0
           isLe := true
           rhs := supplier_data.max_pallets : LinConstraint }) ])).flatten
  let lead_time_constraints := (data.items.map (fun p =>
    let item_id := p.1
    let item_data := p.2
    (dlookupD data.available_suppliers item_id []).map (fun supplier_id =>
      let supplier_data := dlookupD data.suppliers supplier_id defaultSupplier
      let lead_time := supplier_data.lead_time
      let expected_demand_during_lead_time := item_data.average_daily_sale * lead_time
      (s!"Lead_Time_Expiry_{item_id}_{supplier_id}",
       { terms := [((item_id, supplier_id), item_data.units_per_pallet)]
         lhsConst := item_data.current_stock
         isLe := true
         rhs := item_data.expected_demand + expected_demand_during_lead_time : LinConstraint })))).flatten
  ({ pname := "Stock_Purchasing_Optimization"
     sense := LpSense.Minimize
     objective := objective
     constraints := stock_constraints ++ supplier_constraints ++ lead_time_constraints },
   x)

/- ## Constraint semantics -/

/-- Value of a linear term list under an assignment of the variables. -/
def evalTerms (v : Nat × Nat → ℚ) (terms : List ((Nat × Nat) × ℚ)) : ℚ :=
  (terms.map (fun t => v t.1 * t.2)).sum

/-- Satisfaction of one constraint. -/
def LinConstraint.sat (c : LinConstraint) (v : Nat × Nat → ℚ) : Prop :=
  if c.isLe then evalTerms v c.terms + c.lhsConst ≤ c.rhs
  else c.rhs ≤ evalTerms v c.terms + c.lhsConst

instance (c : LinConstraint) (v : Nat × Nat → ℚ) : Decidable (c.sat v) := by
  unfold LinConstraint.sat
  exact inferInstance

/-- An assignment satisfies the whole problem. -/
def feasibleAssign (P : LpProblem) (v : Nat × Nat → ℚ) : Prop :=
  ∀ c ∈ P.constraints, c.2.sat v

/-- Assignments respecting the variable domains (`lowBound=0`, `cat=Integer`):
nonnegative integers, cast into the rational semantics. -/
def natAssign (a : Nat × Nat → ℕ) : Nat × Nat → ℚ := fun k => (a k : ℚ)

/-- Feasibility over the declared nonnegative-integer domain. -/
def feasibleNat (P : LpProblem) (a : Nat × Nat → ℕ) : Prop :=
  feasibleAssign P (natAssign a)

/- ## Result extraction (`solve_model`) -/

/-- Solver status, as pulp reports it. -/
inductive LpStatus where
  | NotSolved
  | Optimal
  | Infeasible
  | Unbounded
  | Undefined
deriving DecidableEq

/-- One row of the results table assembled by `solve_model`. -/
structure PlanRow where
  ItemID : Nat
  ItemName : String
  SupplierID : Nat
  SupplierName : String
  PalletsOrdered : Int
  UnitsOrdered : Int
  CostPerPallet : ℚ
  TotalCost : ℚ
deriving DecidableEq

/-- Python `int()` on a rational: truncation toward zero. -/
def pyInt (q : ℚ) : Int := if q < 0 then ⌈q⌉ else ⌊q⌋

/-- The record literal appended to `results` in `solve_model` for the pair
`(item_id, supplier_id)` whose variable solved to `pallets_ordered`. -/
def mkPlanRow (data : OptData) (item_id supplier_id : Nat) (pallets_ordered : ℚ) : PlanRow :=
  let units_ordered := pallets_ordered * (dlookupD data.items item_id defaultItem).units_per_pallet
  let cost := pallets_ordered * dlookupD (dlookupD data.costs item_id []) supplier_id 0
  { ItemID := item_id
    ItemName := (dlookupD data.items item_id defaultItem).name
    SupplierID := supplier_id
    SupplierName := (dlookupD data.suppliers supplier_id defaultSupplier).name
    PalletsOrdered := pyInt pallets_ordered
    UnitsOrdered := pyInt units_ordered
    CostPerPallet := dlookupD (dlookupD data.costs item_id []) supplier_id 0
    TotalCost := cost }

/-- `solve_model` from src/models/optimizer.py, after the black-box solver
call: the solver's verdict is `status`, its objective value `objective_value`,
and `varValue k` is `x[k].value()` (`none` models Python `None`). Returns
`none` for the `(None, None)` early exit, otherwise the results table and the
objective value. The guard mirrors
`if pallets_ordered and pallets_ordered > 0` (truthiness plus comparison). -/
def extract_results (varValue : Nat × Nat → Option ℚ) (x : List (Nat × Nat))
    (data : OptData) : List PlanRow :=
  (data.items.map (fun p =>
    let item_id := p.1
    (dlookupD data.available_suppliers item_id []).filterMap (fun supplier_id =>
      if (item_id, supplier_id) ∈ x then
        match varValue (item_id, supplier_id) with
        | none => none
        | some pallets_ordered =>
          if pallets_ordered ≠ 0 ∧ 0 < pallets_ordered then
            some (mkPlanRow data item_id supplier_id pallets_ordered)
          else none
      else none))).flatten

def solve_model (status : LpStatus) (objective_value : ℚ)
    (varValue : Nat × Nat → Option ℚ) (x : List (Nat × Nat)) (data : OptData) :
    Option (List PlanRow × ℚ) :=
  if status ≠ LpStatus.Optimal then none
  else
    let results := extract_results varValue x data
    some (results, objective_value)

/-- Every dictionary access `create_optimization_model` performs on `data`
hits a present key: `available_suppliers[item_id]` and `costs[item_id]` for
every item, and `costs[item_id][supplier_id]` and `suppliers[supplier_id]`
for every listed supplier of an item. -/
def allLookupsOk (data : OptData) : Prop :=
  ∀ p ∈ data.items,
    (dlookup data.available_suppliers p.1).isSome = true ∧
    (dlookup data.costs p.1).isSome = true ∧
    ∀ s ∈ dlookupD data.available_suppliers p.1 [],
      (dlookup (dlookupD data.costs p.1 []) s).isSome = true ∧
      (dlookup data.suppliers s).isSome = true

instance (data : OptData) : Decidable (allLookupsOk data) := by
  unfold allLookupsOk
  exact inferInstance

/- ## Association-list dictionary lemmas -/

theorem dlookup_isSome_iff {K V : Type} [DecidableEq K] (l : List (K × V)) (k : K) :
    (dlookup l k).isSome = true ↔ k ∈ l.map Prod.fst := by
  induction l with
  | nil => simp [dlookup]
  | cons p t ih =>
    obtain ⟨k2, v⟩ := p
    by_cases h : k2 = k
    · subst h
      simp [dlookup]
    · simp [dlookup, h, ih, Ne.symm h]

theorem dlookup_mem {K V : Type} [DecidableEq K] {l : List (K × V)} {k : K} {v : V}
    (h : dlookup l k = some v) : (k, v) ∈ l := by
  induction l with
  | nil => simp [dlookup] at h
  | cons p t ih =>
    obtain ⟨k2, v2⟩ := p
    by_cases hk : k2 = k
    · subst hk
      simp [dlookup] at h
      simp [h]
    · simp [dlookup, hk] at h
      exact List.mem_cons_of_mem _ (ih h)

theorem keys_dictInsert {K V : Type} [DecidableEq K] (l : List (K × V)) (k : K) (v : V) :
    (dictInsert l k v).map Prod.fst = pyInsertUnique (l.map Prod.fst) k := by
  rw [pyInsertUnique]
  induction l with
  | nil => simp [dictInsert]
  | cons p t ih =>
    obtain ⟨k2, v2⟩ := p
    by_cases h : k2 = k
    · subst h
      simp [dictInsert]
    · by_cases hm : k ∈ t.map Prod.fst <;>
        simp [dictInsert, h, Ne.symm h, ih, hm]

theorem mem_dictInsert {K V : Type} [DecidableEq K] {l : List (K × V)} {k : K} {v : V}
    {p : K × V} (h : p ∈ dictInsert l k v) : p = (k, v) ∨ p ∈ l := by
  induction l with
  | nil => simpa [dictInsert] using h
  | cons q t ih =>
    obtain ⟨k2, v2⟩ := q
    by_cases hk : k2 = k
    · subst hk
      rcases (by simpa [dictInsert] using h : p = (k2, v) ∨ p ∈ t) with h1 | h1
      · exact Or.inl h1
      · exact Or.inr (List.mem_cons_of_mem _ h1)
    · rcases (by simpa [dictInsert, hk] using h : p = (k2, v2) ∨ p ∈ dictInsert t k v) with h1 | h1
      · exact Or.inr (by simp [h1])
      · rcases ih h1 with h2 | h2
        · exact Or.inl h2
        · exact Or.inr (List.mem_cons_of_mem _ h2)

theorem dictInsert_fresh {K V : Type} [DecidableEq K] {l : List (K × V)} {k : K}
    (v : V) (h : k ∉ l.map Prod.fst) : dictInsert l k v = l ++ [(k, v)] := by
  induction l with
  | nil => simp [dictInsert]
  | cons p t ih =>
    obtain ⟨k2, v2⟩ := p
    simp only [List.map_cons, List.mem_cons] at h
    push_neg at h
    simp [dictInsert, Ne.symm h.1, ih h.2]

theorem nodup_keys_dictInsert {K V : Type} [DecidableEq K] {l : List (K × V)} (k : K) (v : V)
    (h : (l.map Prod.fst).Nodup) : ((dictInsert l k v).map Prod.fst).Nodup := by
  rw [keys_dictInsert, pyInsertUnique]
  by_cases hm : k ∈ l.map Prod.fst
  · simpa [hm]
  · simpa [hm] using List.Nodup.append h (by simp) (by simpa using hm)

/- ## Generic lemmas about the first-occurrence-unique fold -/

theorem mem_insFold {α : Type} [DecidableEq α] (l : List α) (acc : List α) (a : α) :
    a ∈ l.foldl pyInsertUnique acc ↔ a ∈ acc ∨ a ∈ l := by
  induction l generalizing acc with
  | nil => simp
  | cons b t ih =>
    by_cases hb : b ∈ acc
    · simp only [List.foldl_cons, pyInsertUnique, if_pos hb, ih, List.mem_cons]
      constructor
      · rintro (h | h)
        · exact Or.inl h
        · exact Or.inr (Or.inr h)
      · rintro (h | h | h)
        · exact Or.inl h
        · exact Or.inl (h ▸ hb)
        · exact Or.inr h
    · simp only [List.foldl_cons, pyInsertUnique, if_neg hb, ih, List.mem_append,
        List.mem_singleton, List.mem_cons]
      tauto

theorem nodup_insFold {α : Type} [DecidableEq α] (l : List α) (acc : List α)
    (h : acc.Nodup) :
    (l.foldl pyInsertUnique acc).Nodup := by
  induction l generalizing acc with
  | nil => simpa
  | cons b t ih =>
    by_cases hb : b ∈ acc
    · simpa [pyInsertUnique, hb] using ih acc h
    · simp only [List.foldl_cons, pyInsertUnique, if_neg hb]
      exact ih _ (List.Nodup.append h (by simp) (by simpa using hb))

theorem insFold_eq_append {α : Type} [DecidableEq α] (l : List α) (acc : List α)
    (h : ∀ a ∈ l, a ∉ acc) (hl : l.Nodup) :
    l.foldl pyInsertUnique acc = acc ++ l := by
  induction l generalizing acc with
  | nil => simp
  | cons b t ih =>
    have hb : b ∉ acc := h b (by simp)
    simp only [List.foldl_cons, pyInsertUnique, if_neg hb]
    rw [ih (acc ++ [b])]
    · simp
    · intro a ha
      simp only [List.mem_append, List.mem_singleton]
      push_neg
      refine ⟨h a (by simp [ha]), ?_⟩
      rintro rfl
      exact (List.nodup_cons.mp hl).1 ha
    · exact (List.nodup_cons.mp hl).2

theorem mem_uniqueList {α : Type} [DecidableEq α] (l : List α) (a : α) :
    a ∈ uniqueList l ↔ a ∈ l := by
  simp [uniqueList, mem_insFold]

theorem nodup_uniqueList {α : Type} [DecidableEq α] (l : List α) :
    (uniqueList l).Nodup :=
  nodup_insFold l [] (by simp)

/- ## Folding `dictInsert` over rows -/

theorem keys_foldl_dictInsert {R K V : Type} [DecidableEq K]
    (f : R → K) (g : R → V) (rows : List R) (acc : List (K × V)) :
    (rows.foldl (fun c r => dictInsert c (f r) (g r)) acc).map Prod.fst =
      rows.foldl (fun ka r => pyInsertUnique ka (f r)) (acc.map Prod.fst) := by
  induction rows generalizing acc with
  | nil => simp
  | cons r t ih =>
    simp only [List.foldl_cons, ih, keys_dictInsert, pyInsertUnique]

theorem nodup_keys_foldl_dictInsert {R K V : Type} [DecidableEq K]
    (f : R → K) (g : R → V) (rows : List R) (acc : List (K × V))
    (h : (acc.map Prod.fst).Nodup) :
    ((rows.foldl (fun c r => dictInsert c (f r) (g r)) acc).map Prod.fst).Nodup := by
  induction rows generalizing acc with
  | nil => simpa
  | cons r t ih => exact ih _ (nodup_keys_dictInsert _ _ h)

theorem mem_foldl_dictInsert {R K V : Type} [DecidableEq K]
    (f : R → K) (g : R → V) (rows : List R) (acc : List (K × V)) (p : K × V)
    (h : p ∈ rows.foldl (fun c r => dictInsert c (f r) (g r)) acc) :
    p ∈ acc ∨ ∃ r ∈ rows, p = (f r, g r) := by
  induction rows generalizing acc with
  | nil => exact Or.inl (by simpa using h)
  | cons r t ih =>
    rcases ih _ h with h1 | h1
    · rcases mem_dictInsert h1 with h2 | h2
      · exact Or.inr ⟨r, by simp, h2⟩
      · exact Or.inl h2
    · obtain ⟨r', hr', hp⟩ := h1
      exact Or.inr ⟨r', List.mem_cons_of_mem _ hr', hp⟩

/-- Folding a dict assignment over a list of distinct keys, starting from the
empty dict, is the association list of those keys. -/
theorem foldl_dictInsert_nodup_keys {K V : Type} [DecidableEq K]
    (g : K → V) (ks : List K) (acc : List (K × V))
    (hdisj : ∀ k ∈ ks, k ∉ acc.map Prod.fst) (hk : ks.Nodup) :
    ks.foldl (fun c k => dictInsert c k (g k)) acc = acc ++ ks.map (fun k => (k, g k)) := by
  induction ks generalizing acc with
  | nil => simp
  | cons k t ih =>
    have hkacc : k ∉ acc.map Prod.fst := hdisj k (by simp)
    simp only [List.foldl_cons, dictInsert_fresh (g k) hkacc]
    rw [ih (acc ++ [(k, g k)])]
    · simp
    · intro a ha
      simp only [List.map_append, List.mem_append]
      push_neg
      refine ⟨hdisj a (by simp [ha]), ?_⟩
      simp only [List.map_cons, List.map_nil, List.mem_singleton]
      rintro rfl
      exact (List.nodup_cons.mp hk).1 ha
    · exact (List.nodup_cons.mp hk).2

/-- Looking a key up in an association list whose bindings are generated
pointwise from the key. -/
theorem dlookup_assoc_map {K V : Type} [DecidableEq K] (g : K → V) (ks : List K) (k : K) :
    dlookup (ks.map (fun k => (k, g k))) k = if k ∈ ks then some (g k) else none := by
  induction ks with
  | nil => simp [dlookup]
  | cons a t ih =>
    by_cases h : a = k
    · subst h
      simp [dlookup]
    · simp [dlookup, h, Ne.symm h, ih]

/- ## Shape of the prepared data -/

/-- The item record `prepare_data_for_optimization` stores for one item row. -/
def mkItemData (item : ItemRow) : ItemData :=
  { name := item.Name
    current_stock := item.CurrentStock
    min_stock := item.MinStock
    max_stock := item.MaxStock
    expiry_days := item.ExpiryDays
    average_daily_sale := item.AverageDailySale
    expected_demand := calculate_expected_demand item item.ExpiryDays
    units_per_pallet := 24 }

/-- The supplier record `prepare_data_for_optimization` stores for one row. -/
def mkSupplierData (s : SupplierRow) : SupplierData :=
  { name := s.Name
    min_pallets := s.MinPallets
    max_pallets := s.MaxPallets
    lead_time := s.LeadTime }

/-- `available_suppliers[item_id]` as computed per item: the distinct supplier
ids of the pricing rows for that item, in order of first occurrence. -/
def availFor (pricing_df : List PricingRow) (item_id : Nat) : List Nat :=
  uniqueList ((pricing_df.filter (fun r => r.ItemID = item_id)).map PricingRow.SupplierID)

/-- `costs[item_id]` as computed per item: supplier → cost dictionary folded
over that item's pricing rows. -/
def costsFor (pricing_df : List PricingRow) (item_id : Nat) : List (Nat × ℚ) :=
  (pricing_df.filter (fun r => r.ItemID = item_id)).foldl
    (fun c r => dictInsert c r.SupplierID r.CostPerPallet) []

theorem prepare_items_def (itdf : List ItemRow) (sudf : List SupplierRow)
    (prdf : List PricingRow) :
    (prepare_data_for_optimization itdf sudf prdf).items =
      itdf.foldl (fun acc item => dictInsert acc item.ItemID (mkItemData item)) [] := rfl

theorem prepare_suppliers_def (itdf : List ItemRow) (sudf : List SupplierRow)
    (prdf : List PricingRow) :
    (prepare_data_for_optimization itdf sudf prdf).suppliers =
      sudf.foldl (fun acc s => dictInsert acc s.SupplierID (mkSupplierData s)) [] := rfl

theorem prepare_avail_def (itdf : List ItemRow) (sudf : List SupplierRow)
    (prdf : List PricingRow) :
    (prepare_data_for_optimization itdf sudf prdf).available_suppliers =
      (((prepare_data_for_optimization itdf sudf prdf).items.map Prod.fst).foldl
        (fun acc item_id => dictInsert acc item_id (availFor prdf item_id)) []) := rfl

theorem prepare_costs_def (itdf : List ItemRow) (sudf : List SupplierRow)
    (prdf : List PricingRow) :
    (prepare_data_for_optimization itdf sudf prdf).costs =
      (((prepare_data_for_optimization itdf sudf prdf).items.map Prod.fst).foldl
        (fun acc item_id => dictInsert acc item_id (costsFor prdf item_id)) []) := rfl

theorem prepare_items_keys_nodup (itdf : List ItemRow) (sudf : List SupplierRow)
    (prdf : List PricingRow) :
    (((prepare_data_for_optimization itdf sudf prdf).items.map Prod.fst)).Nodup := by
  rw [prepare_items_def]
  exact nodup_keys_foldl_dictInsert (fun item => item.ItemID) mkItemData itdf [] (by simp)

theorem prepare_suppliers_keys_nodup (itdf : List ItemRow) (sudf : List SupplierRow)
    (prdf : List PricingRow) :
    (((prepare_data_for_optimization itdf sudf prdf).suppliers.map Prod.fst)).Nodup := by
  rw [prepare_suppliers_def]
  exact nodup_keys_foldl_dictInsert (fun s => s.SupplierID) mkSupplierData sudf [] (by simp)

theorem prepare_avail_eq (itdf : List ItemRow) (sudf : List SupplierRow)
    (prdf : List PricingRow) :
    (prepare_data_for_optimization itdf sudf prdf).available_suppliers =
      ((prepare_data_for_optimization itdf sudf prdf).items.map Prod.fst).map
        (fun i => (i, availFor prdf i)) := by
  rw [prepare_avail_def]
  exact (foldl_dictInsert_nodup_keys (availFor prdf) _ [] (by simp)
    (prepare_items_keys_nodup itdf sudf prdf)).trans (by simp)

theorem prepare_costs_eq (itdf : List ItemRow) (sudf : List SupplierRow)
    (prdf : List PricingRow) :
    (prepare_data_for_optimization itdf sudf prdf).costs =
      ((prepare_data_for_optimization itdf sudf prdf).items.map Prod.fst).map
        (fun i => (i, costsFor prdf i)) := by
  rw [prepare_costs_def]
  exact (foldl_dictInsert_nodup_keys (costsFor prdf) _ [] (by simp)
    (prepare_items_keys_nodup itdf sudf prdf)).trans (by simp)

theorem prepare_avail_lookup (itdf : List ItemRow) (sudf : List SupplierRow)
    (prdf : List PricingRow) (i : Nat) :
    dlookupD (prepare_data_for_optimization itdf sudf prdf).available_suppliers i [] =
      if i ∈ (prepare_data_for_optimization itdf sudf prdf).items.map Prod.fst
      then availFor prdf i else [] := by
  rw [dlookupD, prepare_avail_eq, dlookup_assoc_map]
  by_cases h : i ∈ (prepare_data_for_optimization itdf sudf prdf).items.map Prod.fst <;>
    simp [h]

theorem prepare_costs_lookup (itdf : List ItemRow) (sudf : List SupplierRow)
    (prdf : List PricingRow) (i : Nat) :
    dlookupD (prepare_data_for_optimization itdf sudf prdf).costs i [] =
      if i ∈ (prepare_data_for_optimization itdf sudf prdf).items.map Prod.fst
      then costsFor prdf i else [] := by
  rw [dlookupD, prepare_costs_eq, dlookup_assoc_map]
  by_cases h : i ∈ (prepare_data_for_optimization itdf sudf prdf).items.map Prod.fst <;>
    simp [h]

/-- The supplier list per item of the prepared data is exactly the key list of
that item's cost dictionary. -/
theorem prepare_avail_eq_costs_keys (itdf : List ItemRow) (sudf : List SupplierRow)
    (prdf : List PricingRow) (i : Nat) :
    dlookupD (prepare_data_for_optimization itdf sudf prdf).available_suppliers i [] =
      (dlookupD (prepare_data_for_optimization itdf sudf prdf).costs i []).map Prod.fst := by
  rw [prepare_avail_lookup, prepare_costs_lookup]
  by_cases h : i ∈ (prepare_data_for_optimization itdf sudf prdf).items.map Prod.fst
  · simp only [if_pos h]
    rw [availFor, costsFor,
      keys_foldl_dictInsert (fun r : PricingRow => r.SupplierID)
        (fun r : PricingRow => r.CostPerPallet)]
    simp [uniqueList, List.foldl_map]
  · simp [h]

theorem prepare_avail_nodup (itdf : List ItemRow) (sudf : List SupplierRow)
    (prdf : List PricingRow) (i : Nat) :
    (dlookupD (prepare_data_for_optimization itdf sudf prdf).available_suppliers i []).Nodup := by
  rw [prepare_avail_lookup]
  by_cases h : i ∈ (prepare_data_for_optimization itdf sudf prdf).items.map Prod.fst
  · simpa [h] using nodup_uniqueList _
  · simp [h]

/-- Every stored item record has the fixed pallet size 24 and the derived
expected demand `average_daily_sale * expiry_days`. -/
theorem prepare_item_fields (itdf : List ItemRow) (sudf : List SupplierRow)
    (prdf : List PricingRow) :
    ∀ p ∈ (prepare_data_for_optimization itdf sudf prdf).items,
      p.2.units_per_pallet = 24 ∧
      p.2.expected_demand = p.2.average_daily_sale * p.2.expiry_days := by
  intro p hp
  rw [prepare_items_def] at hp
  rcases mem_foldl_dictInsert (fun item => item.ItemID) mkItemData itdf [] p hp with h | h
  · simp at h
  · obtain ⟨r, _, rfl⟩ := h
    simp [mkItemData, calculate_expected_demand]

/- ## Shape of the built model -/

/-- All (item, supplier) pairs the builder's loops range over, in loop order
(one entry per item entry and listed supplier). -/
def joinPairs (data : OptData) : List (Nat × Nat) :=
  (data.items.map (fun p =>
    (dlookupD data.available_suppliers p.1 []).map (fun s => (p.1, s)))).flatten

theorem create_model_x_def (data : OptData) :
    (create_optimization_model data).2 = (joinPairs data).foldl pyInsertUnique [] := by
  show (data.items.foldl (fun acc p =>
      (dlookupD data.available_suppliers p.1 []).foldl (fun acc2 supplier_id =>
        pyInsertUnique acc2 (p.1, supplier_id)) acc) []) = _
  rw [joinPairs, List.foldl_flatten, List.foldl_map]
  simp only [List.foldl_map]

theorem x_nodup (data : OptData) : (create_optimization_model data).2.Nodup := by
  rw [create_model_x_def]
  exact nodup_insFold _ _ (by simp)

theorem mem_x_iff (data : OptData) (k : Nat × Nat) :
    k ∈ (create_optimization_model data).2 ↔ k ∈ joinPairs data := by
  rw [create_model_x_def]
  exact (mem_insFold (joinPairs data) [] k).trans (by simp)

theorem mem_joinPairs (data : OptData) (k : Nat × Nat) :
    k ∈ joinPairs data ↔
      ∃ p ∈ data.items, ∃ s ∈ dlookupD data.available_suppliers p.1 [], k = (p.1, s) := by
  simp only [joinPairs, List.mem_flatten, List.mem_map]
  constructor
  · rintro ⟨l, ⟨p, hp, rfl⟩, hk⟩
    obtain ⟨s, hs, rfl⟩ := List.mem_map.mp hk
    exact ⟨p, hp, s, hs, rfl⟩
  · rintro ⟨p, hp, s, hs, rfl⟩
    exact ⟨_, ⟨p, hp, rfl⟩, List.mem_map_of_mem _ hs⟩

theorem x_eq_joinPairs (data : OptData) (h : (joinPairs data).Nodup) :
    (create_optimization_model data).2 = joinPairs data := by
  rw [create_model_x_def]
  simpa using insFold_eq_append (joinPairs data) [] (by simp) h

/-- For prepared data the loop pairs are pairwise distinct: item keys are
unique and each item's supplier list is `unique()`d. -/
theorem prepare_joinPairs_nodup (itdf : List ItemRow) (sudf : List SupplierRow)
    (prdf : List PricingRow) :
    (joinPairs (prepare_data_for_optimization itdf sudf prdf)).Nodup := by
  set data := prepare_data_for_optimization itdf sudf prdf with hdata
  rw [joinPairs, List.nodup_flatten]
  constructor
  · rintro l hl
    obtain ⟨p, hp, rfl⟩ := List.mem_map.mp hl
    exact (prepare_avail_nodup itdf sudf prdf p.1).map
      (fun a b hab => by simpa using congrArg Prod.snd hab)
  · rw [List.pairwise_map]
    have hkeys : (data.items.map Prod.fst).Nodup := prepare_items_keys_nodup itdf sudf prdf
    have hpw : data.items.Pairwise (fun a b => a.1 ≠ b.1) := by
      simpa using (List.pairwise_map (R := (· ≠ ·))).mp hkeys
    refine hpw.imp ?_
    intro a b hab
    rw [List.disjoint_left]
    rintro k hk1 hk2
    obtain ⟨s1, _, rfl⟩ := List.mem_map.mp hk1
    obtain ⟨s2, _, hk⟩ := List.mem_map.mp hk2
    exact hab (by simpa using congrArg Prod.fst hk.symm)

/- ## Named pieces of the built problem -/

/-- The objective the builder emits: one cost term per listed pair. -/
def objectiveOf (data : OptData) : List ((Nat × Nat) × ℚ) :=
  (data.items.map (fun p =>
    (dlookupD data.available_suppliers p.1 []).map (fun s =>
      ((p.1, s), dlookupD (dlookupD data.costs p.1 []) s 0)))).flatten

/-- The `Min_Stock_{i}` constraint the builder emits for item `i` with
record `d`. -/
def minStockConstraint (data : OptData) (i : Nat) (d : ItemData) : String × LinConstraint :=
  (s!"Min_Stock_{i}",
   { terms := (dlookupD data.available_suppliers i []).map (fun s => ((i, s), d.units_per_pallet))
     lhsConst := d.current_stock
     isLe := false
     rhs := d.min_stock })

/-- The `Max_Stock_{i}` constraint the builder emits for item `i` with
record `d`. -/
def maxStockConstraint (data : OptData) (i : Nat) (d : ItemData) : String × LinConstraint :=
  (s!"Max_Stock_{i}",
   { terms := (dlookupD data.available_suppliers i []).map (fun s => ((i, s), d.units_per_pallet))
     lhsConst := d.current_stock
     isLe := true
     rhs := d.max_stock })

/-- The `Lead_Time_Expiry_{i}_{s}` constraint the builder emits for the pair
`(i, s)` where item `i` has record `d`. -/
def leadTimeConstraint (data : OptData) (i s : Nat) (d : ItemData) : String × LinConstraint :=
  (s!"Lead_Time_Expiry_{i}_{s}",
   { terms := [((i, s), d.units_per_pallet)]
     lhsConst := d.current_stock
     isLe := true
     rhs := d.expected_demand +
       d.average_daily_sale * (dlookupD data.suppliers s defaultSupplier).lead_time })

/-- The block of stock constraints, in builder order. -/
def stockConstraintsOf (data : OptData) : List (String × LinConstraint) :=
  (data.items.map (fun p =>
    [minStockConstraint data p.1 p.2, maxStockConstraint data p.1 p.2])).flatten

/-- The item ids the builder attributes to one supplier. -/
def itemsForSupplier (data : OptData) (supplier_id : Nat) : List Nat :=
  (data.items.map Prod.fst).filter
    (fun item_id => supplier_id ∈ dlookupD data.available_suppliers item_id [])

/-- The block of supplier constraints, in builder order; a supplier with no
listed item contributes the empty block. -/
def supplierConstraintsOf (data : OptData) : List (String × LinConstraint) :=
  (data.suppliers.map (fun q =>
    if (itemsForSupplier data q.1).isEmpty then ([] : List (String × LinConstraint)) else
      [ (s!"Min_Pallets_{q.1}",
         { terms := (itemsForSupplier data q.1).map (fun item_id => ((item_id, q.1), (1 : ℚ)))
           lhsConst := 0
           isLe := false
           rhs := q.2.min_pallets : LinConstraint }),
        (s!"Max_Pallets_{q.1}",
         { terms := (itemsForSupplier data q.1).map (fun item_id => ((item_id, q.1), (1 : ℚ)))
           lhsConst := 0
           isLe := true
           rhs := q.2.max_pallets : LinConstraint }) ])).flatten

/-- The block of lead-time/expiry constraints, in builder order. -/
def leadConstraintsOf (data : OptData) : List (String × LinConstraint) :=
  (data.items.map (fun p =>
    (dlookupD data.available_suppliers p.1 []).map (fun s =>
      leadTimeConstraint data p.1 s p.2))).flatten

theorem create_model_sense (data : OptData) :
    (create_optimization_model data).1.sense = LpSense.Minimize := rfl

theorem create_model_objective_def (data : OptData) :
    (create_optimization_model data).1.objective = objectiveOf data := rfl

theorem create_model_constraints_def (data : OptData) :
    (create_optimization_model data).1.constraints =
      stockConstraintsOf data ++ supplierConstraintsOf data ++ leadConstraintsOf data := rfl

theorem minStockConstraint_mem (data : OptData) {i : Nat} {d : ItemData}
    (h : (i, d) ∈ data.items) :
    minStockConstraint data i d ∈ (create_optimization_model data).1.constraints := by
  rw [create_model_constraints_def]
  refine List.mem_append_left _ (List.mem_append_left _ ?_)
  exact List.mem_flatten_of_mem (List.mem_map_of_mem _ h) (by simp)

theorem leadTimeConstraint_mem (data : OptData) {i : Nat} {d : ItemData} {s : Nat}
    (h : (i, d) ∈ data.items) (hs : s ∈ dlookupD data.available_suppliers i []) :
    leadTimeConstraint data i s d ∈ (create_optimization_model data).1.constraints := by
  rw [create_model_constraints_def]
  refine List.mem_append_right _ ?_
  exact List.mem_flatten_of_mem (List.mem_map_of_mem _ h) (List.mem_map_of_mem _ hs)

/- ## Claim C1 -/

/-- C1. For every eligible (item, supplier) pair of the prepared data, the
built problem contains the lead-time/expiry constraint
`x[i,s]*units_per_pallet + current_stock[i] ≤ expected_demand[i] +
average_daily_sale[i]*lead_time[s]`; and for an item with
`average_daily_sale = 0` and positive current stock, no nonnegative integer
assignment ordering a positive quantity of that item from an eligible
supplier satisfies the built constraint set. -/
theorem C1_lead_time_expiry (itdf : List ItemRow) (sudf : List SupplierRow)
    (prdf : List PricingRow) (i s : Nat) (d : ItemData)
    (hmem : (i, d) ∈ (prepare_data_for_optimization itdf sudf prdf).items)
    (hs : s ∈ dlookupD (prepare_data_for_optimization itdf sudf prdf).available_suppliers i []) :
    leadTimeConstraint (prepare_data_for_optimization itdf sudf prdf) i s d ∈
      (create_optimization_model (prepare_data_for_optimization itdf sudf prdf)).1.constraints ∧
    (d.average_daily_sale = 0 → 0 < d.current_stock →
      ∀ a : Nat × Nat → ℕ, 0 < a (i, s) →
        ¬ feasibleNat (create_optimization_model (prepare_data_for_optimization itdf sudf prdf)).1 a) := by
  set data := prepare_data_for_optimization itdf sudf prdf with hdata
  refine ⟨leadTimeConstraint_mem data hmem hs, ?_⟩
  intro h0 hcs a hpos hfeas
  have hc := hfeas _ (leadTimeConstraint_mem data hmem hs)
  obtain ⟨hupp, hed⟩ := prepare_item_fields itdf sudf prdf (i, d) hmem
  simp only [leadTimeConstraint, LinConstraint.sat, evalTerms, natAssign, List.map_cons,
    List.map_nil, List.sum_cons, List.sum_nil, if_true] at hc
  rw [hupp] at hc
  rw [hed] at hc
  rw [h0] at hc
  have h1 : (1 : ℚ) ≤ (a (i, s) : ℚ) := by exact_mod_cast hpos
  simp only [zero_mul, mul_zero, add_zero, zero_add] at hc
  nlinarith [hc, hcs, h1]

def itdfC1 : List ItemRow := [⟨1, "A", 5, 0, 100, 10, 0⟩]
def sudfC1 : List SupplierRow := [⟨1, "SA", 0, 50, 3⟩]
def prdfC1 : List PricingRow := [⟨1, 1, 100⟩]
def dC1 : ItemData := mkItemData ⟨1, "A", 5, 0, 100, 10, 0⟩

/-- Witness for C1 at a concrete one-item, one-supplier table with zero
average daily sale and positive stock. -/
theorem C1_lead_time_expiry_witness :
    leadTimeConstraint (prepare_data_for_optimization itdfC1 sudfC1 prdfC1) 1 1 dC1 ∈
      (create_optimization_model (prepare_data_for_optimization itdfC1 sudfC1 prdfC1)).1.constraints ∧
    (dC1.average_daily_sale = 0 → 0 < dC1.current_stock →
      ∀ a : Nat × Nat → ℕ, 0 < a (1, 1) →
        ¬ feasibleNat (create_optimization_model (prepare_data_for_optimization itdfC1 sudfC1 prdfC1)).1 a) :=
  C1_lead_time_expiry itdfC1 sudfC1 prdfC1 1 1 dC1
    (by
      show (1, dC1) ∈ [(1, mkItemData ⟨1, "A", 5, 0, 100, 10, 0⟩)]
      simp [dC1])
    (by decide)

/- ## Claim C9 -/

/-- C9. For an item entry with an empty supplier list, the built problem's
`Min_Stock` constraint for that item has no decision variables, it is
satisfied by an assignment exactly when `min_stock ≤ current_stock`, and when
`current_stock < min_stock` the whole built constraint set is unsatisfiable
(the problem is infeasible). -/
theorem C9_zero_supplier_item (data : OptData) (i : Nat) (d : ItemData)
    (hmem : (i, d) ∈ data.items)
    (hav : dlookupD data.available_suppliers i [] = []) :
    (minStockConstraint data i d ∈ (create_optimization_model data).1.constraints ∧
      (minStockConstraint data i d).2.terms = []) ∧
    (∀ v : Nat × Nat → ℚ, (minStockConstraint data i d).2.sat v ↔ d.min_stock ≤ d.current_stock) ∧
    (d.current_stock < d.min_stock →
      ∀ v : Nat × Nat → ℚ, ¬ feasibleAssign (create_optimization_model data).1 v) := by
  have hterms : (minStockConstraint data i d).2.terms = [] := by
    simp [minStockConstraint, hav]
  have hsat : ∀ v : Nat × Nat → ℚ,
      (minStockConstraint data i d).2.sat v ↔ d.min_stock ≤ d.current_stock := by
    intro v
    rw [LinConstraint.sat, hterms]
    simp [minStockConstraint, evalTerms]
  refine ⟨⟨minStockConstraint_mem data hmem, hterms⟩, hsat, ?_⟩
  intro hlt v hfeas
  have := (hsat v).mp (hfeas _ (minStockConstraint_mem data hmem))
  linarith

def dataC9 : OptData :=
  prepare_data_for_optimization
    [⟨1, "A", 5, 0, 100, 10, 1⟩, ⟨2, "B", 3, 10, 100, 10, 1⟩]
    [⟨1, "SA", 0, 50, 3⟩] [⟨1, 1, 100⟩]

def dC9 : ItemData := mkItemData ⟨2, "B", 3, 10, 100, 10, 1⟩

/-- Witness for C9 at concrete data where item 2 has no eligible supplier and
`current_stock < min_stock`. -/
theorem C9_zero_supplier_item_witness :
    (minStockConstraint dataC9 2 dC9 ∈ (create_optimization_model dataC9).1.constraints ∧
      (minStockConstraint dataC9 2 dC9).2.terms = []) ∧
    (∀ v : Nat × Nat → ℚ, (minStockConstraint dataC9 2 dC9).2.sat v ↔
      dC9.min_stock ≤ dC9.current_stock) ∧
    (dC9.current_stock < dC9.min_stock →
      ∀ v : Nat × Nat → ℚ, ¬ feasibleAssign (create_optimization_model dataC9).1 v) :=
  C9_zero_supplier_item dataC9 2 dC9
    (by
      show (2, dC9) ∈ [(1, mkItemData ⟨1, "A", 5, 0, 100, 10, 1⟩),
        (2, mkItemData ⟨2, "B", 3, 10, 100, 10, 1⟩)]
      simp [dC9])
    (by decide)

/- ## Claim C4 -/

theorem dlookup_eq_some_of_mem_keys {K V : Type} [DecidableEq K] {l : List (K × V)}
    {k : K} (h : k ∈ l.map Prod.fst) (d : V) : dlookup l k = some (dlookupD l k d) := by
  obtain ⟨v, hv⟩ := Option.isSome_iff_exists.mp ((dlookup_isSome_iff l k).mpr h)
  rw [dlookupD, hv]
  rfl

/-- C4. For every input to the preprocessing step, the model builder creates
exactly one decision-variable key per eligible (item, supplier) pair — a pair
being eligible iff `costs[i]` holds a price entry for `s` — and none for any
other pair. -/
theorem C4_one_variable_per_eligible_pair (itdf : List ItemRow)
    (sudf : List SupplierRow) (prdf : List PricingRow) :
    (create_optimization_model (prepare_data_for_optimization itdf sudf prdf)).2.Nodup ∧
    ∀ i s : Nat,
      ((i, s) ∈ (create_optimization_model (prepare_data_for_optimization itdf sudf prdf)).2 ↔
        (dlookup (dlookupD (prepare_data_for_optimization itdf sudf prdf).costs i []) s).isSome
          = true) := by
  set data := prepare_data_for_optimization itdf sudf prdf with hdata
  refine ⟨x_nodup data, ?_⟩
  intro i s
  rw [mem_x_iff, mem_joinPairs]
  constructor
  · rintro ⟨p, hp, s', hs', heq⟩
    obtain ⟨rfl, rfl⟩ : p.1 = i ∧ s' = s := by
      constructor <;> [exact (congrArg Prod.fst heq).symm; exact (congrArg Prod.snd heq).symm]
    rw [hdata, prepare_avail_eq_costs_keys] at hs'
    exact (dlookup_isSome_iff _ _).mpr hs'
  · intro hsome
    have hkey : s ∈ (dlookupD data.costs i []).map Prod.fst :=
      (dlookup_isSome_iff _ _).mp hsome
    have hi : i ∈ data.items.map Prod.fst := by
      by_contra hni
      rw [hdata, prepare_costs_lookup, if_neg hni] at hkey
      simp at hkey
    obtain ⟨p, hp, hfst⟩ := List.mem_map.mp hi
    refine ⟨p, hp, s, ?_, by rw [hfst]⟩
    rw [hfst, hdata, prepare_avail_eq_costs_keys]
    exact hkey

/- ## Claim C5 -/

/-- For any data, the emitted objective is the loop-pair list decorated with
the looked-up cost coefficients. -/
theorem objectiveOf_eq_map (data : OptData) :
    objectiveOf data = (joinPairs data).map
      (fun k => (k, dlookupD (dlookupD data.costs k.1 []) k.2 0)) := by
  rw [objectiveOf, joinPairs, List.map_flatten, List.map_map]
  congr 1
  congr 1
  funext p
  simp only [Function.comp_apply, List.map_map]
  rfl

/-- C5. The built problem minimizes, its objective has exactly one term per
variable key, the coefficient of each term being that pair's price entry, and
nothing else (no other term, no secondary objective). -/
theorem C5_objective_minimizes_cost (itdf : List ItemRow)
    (sudf : List SupplierRow) (prdf : List PricingRow) :
    (create_optimization_model (prepare_data_for_optimization itdf sudf prdf)).1.sense
        = LpSense.Minimize ∧
    (create_optimization_model (prepare_data_for_optimization itdf sudf prdf)).1.objective
        = (create_optimization_model (prepare_data_for_optimization itdf sudf prdf)).2.map
            (fun k => (k,
              dlookupD (dlookupD (prepare_data_for_optimization itdf sudf prdf).costs k.1 [])
                k.2 0)) ∧
    ∀ t ∈ (create_optimization_model (prepare_data_for_optimization itdf sudf prdf)).1.objective,
      dlookup (dlookupD (prepare_data_for_optimization itdf sudf prdf).costs t.1.1 []) t.1.2
        = some t.2 := by
  set data := prepare_data_for_optimization itdf sudf prdf with hdata
  have hx : (create_optimization_model data).2 = joinPairs data :=
    x_eq_joinPairs data (hdata ▸ prepare_joinPairs_nodup itdf sudf prdf)
  refine ⟨create_model_sense data, ?_, ?_⟩
  · rw [create_model_objective_def, hx, objectiveOf_eq_map]
  · intro t ht
    rw [create_model_objective_def, objectiveOf_eq_map] at ht
    obtain ⟨k, hk, rfl⟩ := List.mem_map.mp ht
    obtain ⟨p, hp, s, hs, rfl⟩ := (mem_joinPairs data k).mp hk
    have hkeys : s ∈ (dlookupD data.costs p.1 []).map Prod.fst := by
      rw [hdata] at hs ⊢
      rw [← prepare_avail_eq_costs_keys]
      exact hs
    exact dlookup_eq_some_of_mem_keys hkeys 0

/- ## Claim C6 -/

/-- Number of price entries stored across the items of the prepared data:
the claim's count of eligible (item, supplier) pairs. -/
def numEligiblePairs (data : OptData) : ℕ :=
  (data.items.map (fun p => (dlookupD data.costs p.1 []).length)).sum

/-- The suppliers the builder emits constraints for: those whose
`items_for_supplier` list is nonempty. -/
def suppliersWithEligibleItems (data : OptData) : List (Nat × SupplierData) :=
  data.suppliers.filter (fun q => !(itemsForSupplier data q.1).isEmpty)

theorem length_stockConstraintsOf (data : OptData) :
    (stockConstraintsOf data).length = 2 * data.items.length := by
  rw [stockConstraintsOf, List.length_flatten, List.map_map]
  induction data.items with
  | nil => simp
  | cons p t ih =>
    simp only [List.map_cons, List.sum_cons, Function.comp_apply, List.length_cons,
      List.length_nil, List.length_singleton] at ih ⊢
    omega

theorem sum_map_length_ite {α β : Type} (l : List α) (p : α → Bool) (f g : α → β) :
    (l.map (fun a => (if p a then ([] : List β) else [f a, g a]).length)).sum
      = 2 * (l.filter (fun a => !p a)).length := by
  induction l with
  | nil => simp
  | cons a t ih =>
    cases hp : p a with
    | true => simpa [hp] using ih
    | false =>
      simp only [List.map_cons, List.sum_cons, hp, List.filter_cons, Bool.false_eq_true,
        if_false, Bool.not_false, if_true, List.length_cons, List.length_nil,
        List.length_singleton, ih]
      omega

theorem length_supplierConstraintsOf (data : OptData) :
    (supplierConstraintsOf data).length = 2 * (suppliersWithEligibleItems data).length := by
  rw [supplierConstraintsOf, suppliersWithEligibleItems, List.length_flatten, List.map_map]
  exact sum_map_length_ite data.suppliers (fun q => (itemsForSupplier data q.1).isEmpty) _ _

theorem length_leadConstraintsOf (data : OptData) :
    (leadConstraintsOf data).length =
      (data.items.map (fun p => (dlookupD data.available_suppliers p.1 []).length)).sum := by
  rw [leadConstraintsOf, List.length_flatten, List.map_map]
  congr 1
  refine List.map_congr_left ?_
  intro p _
  simp

theorem length_joinPairs (data : OptData) :
    (joinPairs data).length =
      (data.items.map (fun p => (dlookupD data.available_suppliers p.1 []).length)).sum := by
  rw [joinPairs, List.length_flatten, List.map_map]
  congr 1
  refine List.map_congr_left ?_
  intro p _
  simp

/-- For prepared data the per-item supplier-list lengths sum to the number of
price entries. -/
theorem prepare_sum_avail_lengths (itdf : List ItemRow) (sudf : List SupplierRow)
    (prdf : List PricingRow) :
    ((prepare_data_for_optimization itdf sudf prdf).items.map
      (fun p => (dlookupD (prepare_data_for_optimization itdf sudf prdf).available_suppliers
        p.1 []).length)).sum = numEligiblePairs (prepare_data_for_optimization itdf sudf prdf) := by
  rw [numEligiblePairs]
  congr 1
  refine List.map_congr_left ?_
  intro p _
  rw [prepare_avail_eq_costs_keys, List.length_map]

/-- Every variable/coefficient pair occurring in any built constraint points
at a listed (item, supplier) pair. -/
theorem constraint_terms_pairs (data : OptData) :
    ∀ c ∈ (create_optimization_model data).1.constraints, ∀ t ∈ c.2.terms,
      t.1.1 ∈ data.items.map Prod.fst ∧
      t.1.2 ∈ dlookupD data.available_suppliers t.1.1 [] := by
  intro c hc t ht
  rw [create_model_constraints_def] at hc
  rcases List.mem_append.mp hc with hc1 | hlead
  · rcases List.mem_append.mp hc1 with hstock | hsup
    · obtain ⟨l, hl, hcl⟩ := List.mem_flatten.mp hstock
      obtain ⟨p, hp, rfl⟩ := List.mem_map.mp hl
      simp only [List.mem_cons, List.not_mem_nil, or_false] at hcl
      have hterms : c.2.terms = (dlookupD data.available_suppliers p.1 []).map
          (fun s => ((p.1, s), p.2.units_per_pallet)) := by
        rcases hcl with h | h
        · rw [h, minStockConstraint]
        · rw [h, maxStockConstraint]
      rw [hterms] at ht
      obtain ⟨s, hs, rfl⟩ := List.mem_map.mp ht
      exact ⟨List.mem_map_of_mem _ hp, hs⟩
    · obtain ⟨l, hl, hcl⟩ := List.mem_flatten.mp hsup
      obtain ⟨q, hq, rfl⟩ := List.mem_map.mp hl
      by_cases hemp : (itemsForSupplier data q.1).isEmpty
      · rw [if_pos hemp] at hcl
        simp at hcl
      · rw [if_neg hemp] at hcl
        simp only [List.mem_cons, List.not_mem_nil, or_false] at hcl
        have hterms : c.2.terms = (itemsForSupplier data q.1).map
            (fun item_id => ((item_id, q.1), (1 : ℚ))) := by
          rcases hcl with h | h
          · rw [h]
          · rw [h]
        clear hcl
        rw [hterms] at ht
        obtain ⟨i, hi, rfl⟩ := List.mem_map.mp ht
        have := List.mem_filter.mp hi
        refine ⟨this.1, by simpa using this.2⟩
  · obtain ⟨l, hl, hcl⟩ := List.mem_flatten.mp hlead
    obtain ⟨p, hp, rfl⟩ := List.mem_map.mp hl
    obtain ⟨s, hs, rfl⟩ := List.mem_map.mp hcl
    rw [leadTimeConstraint] at ht
    simp only [List.mem_singleton] at ht
    rw [ht]
    exact ⟨List.mem_map_of_mem _ hp, hs⟩

/-- C6. Building from the same prepared data is deterministic (structurally
identical results), the number of variables is the number of eligible pairs,
the number of constraints is `2*|items| + 2*|suppliers with eligible items| +
|eligible pairs|`, and a supplier with no eligible items is mentioned by no
constraint at all. -/
theorem C6_structural_counts (itdf : List ItemRow) (sudf : List SupplierRow)
    (prdf : List PricingRow) :
    create_optimization_model (prepare_data_for_optimization itdf sudf prdf)
        = create_optimization_model (prepare_data_for_optimization itdf sudf prdf) ∧
    (create_optimization_model (prepare_data_for_optimization itdf sudf prdf)).2.length
        = numEligiblePairs (prepare_data_for_optimization itdf sudf prdf) ∧
    (create_optimization_model (prepare_data_for_optimization itdf sudf prdf)).1.constraints.length
        = 2 * (prepare_data_for_optimization itdf sudf prdf).items.length
          + 2 * (suppliersWithEligibleItems (prepare_data_for_optimization itdf sudf prdf)).length
          + numEligiblePairs (prepare_data_for_optimization itdf sudf prdf) ∧
    ∀ q ∈ (prepare_data_for_optimization itdf sudf prdf).suppliers,
      itemsForSupplier (prepare_data_for_optimization itdf sudf prdf) q.1 = [] →
      ∀ c ∈ (create_optimization_model (prepare_data_for_optimization itdf sudf prdf)).1.constraints,
        ∀ t ∈ c.2.terms, t.1.2 ≠ q.1 := by
  set data := prepare_data_for_optimization itdf sudf prdf with hdata
  refine ⟨rfl, ?_, ?_, ?_⟩
  · rw [x_eq_joinPairs data (hdata ▸ prepare_joinPairs_nodup itdf sudf prdf),
      length_joinPairs, hdata, prepare_sum_avail_lengths]
  · rw [create_model_constraints_def]
    simp only [List.length_append]
    rw [length_stockConstraintsOf, length_supplierConstraintsOf, length_leadConstraintsOf,
      hdata, prepare_sum_avail_lengths]
  · intro q _ hempty c hc t ht
    obtain ⟨hkey, havail⟩ := constraint_terms_pairs data c hc t ht
    intro heq
    have : t.1.1 ∈ itemsForSupplier data q.1 := by
      rw [itemsForSupplier]
      refine List.mem_filter.mpr ⟨hkey, ?_⟩
      rw [← heq]
      simpa using havail
    rw [hempty] at this
    simp at this

/- ## Extraction lemmas -/

/-- The per-pair body of the extraction loop, resolved: it emits a row
exactly when the pair has a variable whose value is `some v` with `v > 0`,
and the row is `mkPlanRow` at that value. -/
theorem extract_body_eq_some (data : OptData) (x : List (Nat × Nat))
    (val : Nat × Nat → Option ℚ) (i s : Nat) (r : PlanRow) :
    (if (i, s) ∈ x then
        match val (i, s) with
        | none => none
        | some pallets_ordered =>
          if pallets_ordered ≠ 0 ∧ 0 < pallets_ordered then
            some (mkPlanRow data i s pallets_ordered)
          else none
      else none) = some r ↔
      (i, s) ∈ x ∧ ∃ v, val (i, s) = some v ∧ 0 < v ∧ r = mkPlanRow data i s v := by
  by_cases hx : (i, s) ∈ x
  · rw [if_pos hx]
    cases hval : val (i, s) with
    | none => simp [hx]
    | some v =>
      constructor
      · intro h
        have h' : (if v ≠ 0 ∧ 0 < v then some (mkPlanRow data i s v) else none) = some r := h
        by_cases hv : v ≠ 0 ∧ 0 < v
        · rw [if_pos hv] at h'
          exact ⟨hx, v, rfl, hv.2, (Option.some_inj.mp h').symm⟩
        · rw [if_neg hv] at h'
          exact absurd h' (by simp)
      · rintro ⟨-, v', hv', hpos, rfl⟩
        obtain rfl : v = v' := Option.some_inj.mp hv'
        have hv : v ≠ 0 ∧ 0 < v := ⟨ne_of_gt hpos, hpos⟩
        show (if v ≠ 0 ∧ 0 < v then some (mkPlanRow data i s v) else none) = _
        rw [if_pos hv]
  · simp [hx]

theorem mem_extract_results (data : OptData) (x : List (Nat × Nat))
    (val : Nat × Nat → Option ℚ) (r : PlanRow) :
    r ∈ extract_results val x data ↔
      ∃ p ∈ data.items, ∃ s ∈ dlookupD data.available_suppliers p.1 [],
        (p.1, s) ∈ x ∧ ∃ v, val (p.1, s) = some v ∧ 0 < v ∧ r = mkPlanRow data p.1 s v := by
  simp only [extract_results, List.mem_flatten, List.mem_map]
  constructor
  · rintro ⟨l, ⟨p, hp, rfl⟩, hr⟩
    obtain ⟨s, hs, hsome⟩ := List.mem_filterMap.mp hr
    exact ⟨p, hp, s, hs, (extract_body_eq_some data x val p.1 s r).mp hsome⟩
  · rintro ⟨p, hp, s, hs, hbody⟩
    refine ⟨_, ⟨p, hp, rfl⟩, List.mem_filterMap.mpr ⟨s, hs, ?_⟩⟩
    exact (extract_body_eq_some data x val p.1 s r).mpr hbody

theorem solve_model_not_optimal (status : LpStatus) (ov : ℚ)
    (val : Nat × Nat → Option ℚ) (x : List (Nat × Nat)) (data : OptData)
    (h : status ≠ LpStatus.Optimal) :
    solve_model status ov val x data = none := by
  rw [solve_model, if_pos h]

theorem solve_model_optimal (ov : ℚ) (val : Nat × Nat → Option ℚ)
    (x : List (Nat × Nat)) (data : OptData) :
    solve_model LpStatus.Optimal ov val x data = some (extract_results val x data, ov) := by
  rw [solve_model, if_neg (by simp)]

/- ## Claim C7 -/

/-- C7. Any non-Optimal status makes `solve_model` return the `(None, None)`
sentinel (no retry: the function is a single pass), and on Optimal the
returned total cost is exactly the solver-reported objective value, not a
recomputation from the lines. -/
theorem C7_status_handling (status : LpStatus) (ov : ℚ)
    (val : Nat × Nat → Option ℚ) (x : List (Nat × Nat)) (data : OptData) :
    (status ≠ LpStatus.Optimal → solve_model status ov val x data = none) ∧
    ∀ res, solve_model LpStatus.Optimal ov val x data = some res → res.2 = ov := by
  refine ⟨solve_model_not_optimal status ov val x data, ?_⟩
  intro res h
  rw [solve_model_optimal] at h
  cases Option.some_inj.mp h
  rfl

/- ## Claim C2 -/

def itdfC2 : List ItemRow := [⟨1, "A", 0, 0, 1000, 30, 1⟩]
def sudfC2 : List SupplierRow := [⟨1, "SA", 0, 50, 3⟩]
def prdfC2 : List PricingRow := [⟨1, 1, 100⟩]
def dataC2 : OptData := prepare_data_for_optimization itdfC2 sudfC2 prdfC2
def valC2 : Nat × Nat → Option ℚ := fun k => if k = (1, 1) then some (29/10) else none

/-- Counterexample to C2 as stated: from an Optimal solve whose variable
(1, 1) carries the value 29/10 > 0, the emitted plan contains the line for
(1, 1), its `PalletsOrdered` is 2 (truncation by `int()`), while rounding to
the nearest integer would give 3. -/
theorem C2_counterexample :
    solve_model LpStatus.Optimal 290 valC2 (create_optimization_model dataC2).2 dataC2 =
      some (extract_results valC2 (create_optimization_model dataC2).2 dataC2, 290) ∧
    mkPlanRow dataC2 1 1 (29/10) ∈
      extract_results valC2 (create_optimization_model dataC2).2 dataC2 ∧
    valC2 (1, 1) = some (29/10) ∧ (0 : ℚ) < 29/10 ∧
    (mkPlanRow dataC2 1 1 (29/10)).PalletsOrdered = 2 ∧
    round ((29 : ℚ)/10) = 3 := by
  refine ⟨solve_model_optimal 290 valC2 _ dataC2, ?_, rfl, by norm_num, ?_, ?_⟩
  · refine (mem_extract_results dataC2 _ valC2 _).mpr
      ⟨(1, mkItemData ⟨1, "A", 0, 0, 1000, 30, 1⟩), ?_, 1, ?_, ?_, 29/10, rfl, by norm_num, rfl⟩
    · show _ ∈ [(1, mkItemData ⟨1, "A", 0, 0, 1000, 30, 1⟩)]
      simp
    · decide
    · decide
  · show pyInt (29/10) = 2
    rw [pyInt, if_neg (by norm_num)]
    rw [Int.floor_eq_iff]
    norm_num
  · rw [round_eq, Int.floor_eq_iff]
    norm_num

/-- C2 as amended: from any extracted plan (hence an Optimal solve), each
line comes from a solved value `v > 0` and its `PalletsOrdered` is `⌊v⌋`
(truncation toward zero by Python `int()`), not the nearest integer. -/
theorem C2_amended_truncation (status : LpStatus) (ov : ℚ)
    (val : Nat × Nat → Option ℚ) (x : List (Nat × Nat)) (data : OptData) :
    ∀ res, solve_model status ov val x data = some res →
      ∀ r ∈ res.1, ∃ v, val (r.ItemID, r.SupplierID) = some v ∧ 0 < v ∧
        r.PalletsOrdered = ⌊v⌋ := by
  intro res hres r hr
  by_cases hst : status = LpStatus.Optimal
  · subst hst
    rw [solve_model_optimal] at hres
    cases Option.some_inj.mp hres
    obtain ⟨p, _, s, _, _, v, hval, hpos, rfl⟩ :=
      (mem_extract_results data x val r).mp hr
    refine ⟨v, hval, hpos, ?_⟩
    show pyInt v = ⌊v⌋
    rw [pyInt, if_neg (not_lt.mpr (le_of_lt hpos))]
  · rw [solve_model_not_optimal status ov val x data hst] at hres
    exact absurd hres (by simp)

def itdfC2W : List ItemRow := [⟨1, "A", 0, 0, 1000, 30, 1⟩]
def sudfC2W : List SupplierRow := [⟨1, "SA", 0, 50, 3⟩]
def prdfC2W : List PricingRow := [⟨1, 1, 100⟩]
def dataC2W : OptData := prepare_data_for_optimization itdfC2W sudfC2W prdfC2W
def valC2W : Nat × Nat → Option ℚ := fun k => if k = (1, 1) then some 2 else none

/-- Witness for the amended C2 at a concrete Optimal solve. -/
theorem C2_amended_truncation_witness :
    ∃ v, valC2W ((mkPlanRow dataC2W 1 1 2).ItemID, (mkPlanRow dataC2W 1 1 2).SupplierID)
        = some v ∧ 0 < v ∧ (mkPlanRow dataC2W 1 1 2).PalletsOrdered = ⌊v⌋ :=
  C2_amended_truncation LpStatus.Optimal 200 valC2W
    (create_optimization_model dataC2W).2 dataC2W
    (extract_results valC2W (create_optimization_model dataC2W).2 dataC2W, 200)
    (solve_model_optimal 200 valC2W _ dataC2W)
    (mkPlanRow dataC2W 1 1 2)
    ((mem_extract_results dataC2W _ valC2W _).mpr
      ⟨(1, mkItemData ⟨1, "A", 0, 0, 1000, 30, 1⟩),
        by
          show _ ∈ [(1, mkItemData ⟨1, "A", 0, 0, 1000, 30, 1⟩)]
          simp,
        1, by decide, by decide, 2, rfl, by norm_num, rfl⟩)

/- ## Claim C3 -/

def itdfC3 : List ItemRow := [⟨1, "A", 0, 0, 1000, 30, 1⟩]
def sudfC3 : List SupplierRow := [⟨1, "SA", 0, 50, 3⟩]
def prdfC3 : List PricingRow := [⟨1, 1, 100⟩]
def dataC3 : OptData := prepare_data_for_optimization itdfC3 sudfC3 prdfC3
def valC3 : Nat × Nat → Option ℚ := fun k => if k = (1, 1) then some (1/2) else none

/-- Counterexample to C3 as stated: from an Optimal solve whose variable
(1, 1) carries the value 1/2 > 0, the extracted plan contains the line for
(1, 1), but its emitted `PalletsOrdered` is 0 — not strictly positive. -/
theorem C3_counterexample :
    solve_model LpStatus.Optimal 50 valC3 (create_optimization_model dataC3).2 dataC3 =
      some (extract_results valC3 (create_optimization_model dataC3).2 dataC3, 50) ∧
    mkPlanRow dataC3 1 1 (1/2) ∈
      extract_results valC3 (create_optimization_model dataC3).2 dataC3 ∧
    valC3 (1, 1) = some (1/2) ∧ (0 : ℚ) < 1/2 ∧
    (mkPlanRow dataC3 1 1 (1/2)).PalletsOrdered = 0 := by
  refine ⟨solve_model_optimal 50 valC3 _ dataC3, ?_, rfl, by norm_num, ?_⟩
  · refine (mem_extract_results dataC3 _ valC3 _).mpr
      ⟨(1, mkItemData ⟨1, "A", 0, 0, 1000, 30, 1⟩), ?_, 1, ?_, ?_, 1/2, rfl, by norm_num, rfl⟩
    · show _ ∈ [(1, mkItemData ⟨1, "A", 0, 0, 1000, 30, 1⟩)]
      simp
    · decide
    · decide
  · show pyInt (1/2) = 0
    rw [pyInt, if_neg (by norm_num)]
    rw [Int.floor_eq_iff]
    norm_num

theorem map_flatten_sublist {α β : Type} (l : List α) (g1 g2 : α → List β)
    (h : ∀ a, (g1 a).Sublist (g2 a)) :
    ((l.map g1).flatten).Sublist ((l.map g2).flatten) := by
  induction l with
  | nil => simp
  | cons a t ih => simpa using (h a).append ih

theorem filterMap_map_sublist {α β γ : Type} (l : List α) (f : α → Option β) (g : β → γ)
    (h : α → γ) (hf : ∀ a b, f a = some b → g b = h a) :
    ((l.filterMap f).map g).Sublist (l.map h) := by
  induction l with
  | nil => simp
  | cons a t ih =>
    cases hfa : f a with
    | none =>
      simp only [List.filterMap_cons, hfa, List.map_cons]
      exact ih.cons _
    | some b =>
      simp only [List.filterMap_cons, hfa, List.map_cons]
      rw [hf a b hfa]
      exact ih.cons₂ _

/-- The (item, supplier) projections of the extracted rows form a sublist of
the builder's loop-pair list. -/
theorem extract_results_pairs_sublist (val : Nat × Nat → Option ℚ)
    (x : List (Nat × Nat)) (data : OptData) :
    ((extract_results val x data).map (fun r => (r.ItemID, r.SupplierID))).Sublist
      (joinPairs data) := by
  rw [extract_results, joinPairs, List.map_flatten, List.map_map]
  apply map_flatten_sublist
  intro p
  refine filterMap_map_sublist _ _ _ _ ?_
  intro a b hab
  obtain ⟨-, v, -, -, rfl⟩ := (extract_body_eq_some data x val p.1 a b).mp hab
  rfl

/-- C3 as amended: every line of an extracted plan has an eligible
(item, supplier) pair (its pair has a variable and a price entry), comes from
a strictly positive solved value `v` with `PalletsOrdered = ⌊v⌋ ≥ 0`, and no
two lines share a pair; `PalletsOrdered` itself is strictly positive whenever
the solved value is an integer (as solver integer variables are), but not for
fractional values in (0, 1). -/
theorem C3_amended_lines (itdf : List ItemRow) (sudf : List SupplierRow)
    (prdf : List PricingRow) (status : LpStatus) (ov : ℚ)
    (val : Nat × Nat → Option ℚ) :
    ∀ res, solve_model status ov val
        (create_optimization_model (prepare_data_for_optimization itdf sudf prdf)).2
        (prepare_data_for_optimization itdf sudf prdf) = some res →
      (∀ r ∈ res.1,
        (r.ItemID, r.SupplierID) ∈
          (create_optimization_model (prepare_data_for_optimization itdf sudf prdf)).2 ∧
        (dlookup (dlookupD (prepare_data_for_optimization itdf sudf prdf).costs r.ItemID [])
          r.SupplierID).isSome = true ∧
        ∃ v, val (r.ItemID, r.SupplierID) = some v ∧ 0 < v ∧ r.PalletsOrdered = ⌊v⌋ ∧
          0 ≤ r.PalletsOrdered ∧ ((∃ n : ℤ, v = (n : ℚ)) → 0 < r.PalletsOrdered)) ∧
      (res.1.map (fun r => (r.ItemID, r.SupplierID))).Nodup := by
  set data := prepare_data_for_optimization itdf sudf prdf with hdata
  intro res hres
  by_cases hst : status = LpStatus.Optimal
  case neg =>
    rw [solve_model_not_optimal status ov val _ data hst] at hres
    exact absurd hres (by simp)
  subst hst
  rw [solve_model_optimal] at hres
  cases Option.some_inj.mp hres
  constructor
  · intro r hr
    obtain ⟨p, hp, s, hs, hx, v, hval, hpos, rfl⟩ :=
      (mem_extract_results data _ val r).mp hr
    have hfloor : (mkPlanRow data p.1 s v).PalletsOrdered = ⌊v⌋ := by
      show pyInt v = ⌊v⌋
      rw [pyInt, if_neg (not_lt.mpr (le_of_lt hpos))]
    refine ⟨hx, ?_, v, hval, hpos, hfloor, ?_, ?_⟩
    · rw [hdata] at hs ⊢
      show (dlookup (dlookupD (prepare_data_for_optimization itdf sudf prdf).costs p.1 []) s).isSome
        = true
      rw [dlookup_isSome_iff, ← prepare_avail_eq_costs_keys]
      exact hs
    · rw [hfloor]
      exact Int.floor_nonneg.mpr (le_of_lt hpos)
    · rintro ⟨n, rfl⟩
      rw [hfloor, Int.floor_intCast]
      exact_mod_cast hpos
  · exact ((hdata ▸ prepare_joinPairs_nodup itdf sudf prdf).sublist
      (extract_results_pairs_sublist val _ data))

def itdfC3W : List ItemRow := [⟨1, "A", 0, 0, 1000, 30, 1⟩]
def sudfC3W : List SupplierRow := [⟨1, "SA", 0, 50, 3⟩]
def prdfC3W : List PricingRow := [⟨1, 1, 100⟩]
def dataC3W : OptData := prepare_data_for_optimization itdfC3W sudfC3W prdfC3W
def valC3W : Nat × Nat → Option ℚ := fun k => if k = (1, 1) then some 2 else none

/-- Witness for the amended C3 at a concrete Optimal solve. -/
theorem C3_amended_lines_witness :
    (((mkPlanRow dataC3W 1 1 2).ItemID, (mkPlanRow dataC3W 1 1 2).SupplierID) ∈
        (create_optimization_model dataC3W).2 ∧
      (dlookup (dlookupD dataC3W.costs (mkPlanRow dataC3W 1 1 2).ItemID [])
        (mkPlanRow dataC3W 1 1 2).SupplierID).isSome = true ∧
      ∃ v, valC3W ((mkPlanRow dataC3W 1 1 2).ItemID, (mkPlanRow dataC3W 1 1 2).SupplierID)
          = some v ∧ 0 < v ∧ (mkPlanRow dataC3W 1 1 2).PalletsOrdered = ⌊v⌋ ∧
        0 ≤ (mkPlanRow dataC3W 1 1 2).PalletsOrdered ∧
        ((∃ n : ℤ, v = (n : ℚ)) → 0 < (mkPlanRow dataC3W 1 1 2).PalletsOrdered)) ∧
    ((extract_results valC3W (create_optimization_model dataC3W).2 dataC3W).map
      (fun r => (r.ItemID, r.SupplierID))).Nodup := by
  have h := C3_amended_lines itdfC3W sudfC3W prdfC3W LpStatus.Optimal 200 valC3W
    (extract_results valC3W (create_optimization_model dataC3W).2 dataC3W, 200)
    (solve_model_optimal 200 valC3W _ dataC3W)
  refine ⟨h.1 (mkPlanRow dataC3W 1 1 2) ?_, h.2⟩
  refine (mem_extract_results dataC3W _ valC3W _).mpr
    ⟨(1, mkItemData ⟨1, "A", 0, 0, 1000, 30, 1⟩), ?_, 1, ?_, ?_, 2, rfl, by norm_num, rfl⟩
  · show _ ∈ [(1, mkItemData ⟨1, "A", 0, 0, 1000, 30, 1⟩)]
    simp
  · decide
  · decide

/- ## Claim C8 -/

theorem dlookup_eq_of_mem_nodup {K V : Type} [DecidableEq K] {l : List (K × V)}
    (hn : (l.map Prod.fst).Nodup) {k : K} {v : V} (h : (k, v) ∈ l) :
    dlookup l k = some v := by
  induction l with
  | nil => simp at h
  | cons p t ih =>
    obtain ⟨k2, v2⟩ := p
    rcases List.mem_cons.mp h with heq | hmem
    · cases heq
      simp [dlookup]
    · have hk : k2 ≠ k := by
        rintro rfl
        exact (List.nodup_cons.mp hn).1
          (by simpa using List.mem_map_of_mem Prod.fst hmem)
      simp only [dlookup, if_neg hk]
      exact ih (List.nodup_cons.mp hn).2 hmem

def itdfC8 : List ItemRow := [⟨1, "A", 0, 0, 1000, 30, 1⟩]
def sudfC8 : List SupplierRow := [⟨1, "SA", 0, 50, 3⟩]
def prdfC8 : List PricingRow := [⟨1, 1, 100⟩]
def dataC8 : OptData := prepare_data_for_optimization itdfC8 sudfC8 prdfC8
def valC8 : Nat × Nat → Option ℚ := fun k => if k = (1, 1) then some (29/10) else none

/-- Counterexample to C8 as stated: from an Optimal solve with solved value
29/10 for pair (1, 1) (units_per_pallet 24, cost 100), the emitted line has
`PalletsOrdered = 2` but `UnitsOrdered = 69 ≠ 2*24` and
`TotalCost = 290 ≠ 2*100`. -/
theorem C8_counterexample :
    solve_model LpStatus.Optimal 290 valC8 (create_optimization_model dataC8).2 dataC8 =
      some (extract_results valC8 (create_optimization_model dataC8).2 dataC8, 290) ∧
    mkPlanRow dataC8 1 1 (29/10) ∈
      extract_results valC8 (create_optimization_model dataC8).2 dataC8 ∧
    (mkPlanRow dataC8 1 1 (29/10)).PalletsOrdered = 2 ∧
    (mkPlanRow dataC8 1 1 (29/10)).UnitsOrdered = 69 ∧
    (mkPlanRow dataC8 1 1 (29/10)).CostPerPallet = 100 ∧
    (mkPlanRow dataC8 1 1 (29/10)).TotalCost = 290 ∧
    (69 : ℤ) ≠ 2 * 24 ∧ (290 : ℚ) ≠ 2 * 100 := by
  refine ⟨solve_model_optimal 290 valC8 _ dataC8, ?_, ?_, ?_, rfl, ?_, by decide, by norm_num⟩
  · refine (mem_extract_results dataC8 _ valC8 _).mpr
      ⟨(1, mkItemData ⟨1, "A", 0, 0, 1000, 30, 1⟩), ?_, 1, ?_, ?_, 29/10, rfl, by norm_num, rfl⟩
    · show _ ∈ [(1, mkItemData ⟨1, "A", 0, 0, 1000, 30, 1⟩)]
      simp
    · decide
    · decide
  · show pyInt (29/10) = 2
    rw [pyInt, if_neg (by norm_num)]
    rw [Int.floor_eq_iff]
    norm_num
  · show pyInt ((29 : ℚ)/10 * (24 : ℚ)) = 69
    rw [pyInt, if_neg (by norm_num)]
    rw [Int.floor_eq_iff]
    norm_num
  · show (29 : ℚ)/10 * (100 : ℚ) = 290
    norm_num

/-- C8 as amended: each extracted line from solved value `v > 0` has
`UnitsOrdered = ⌊v * 24⌋` (truncated product, not `PalletsOrdered * 24`) and
`TotalCost = v * CostPerPallet` (at the raw value, not `PalletsOrdered *
CostPerPallet`); when `v` is an integer — the solver contract for integer
variables — the two claimed identities do hold. -/
theorem C8_amended_line_arithmetic (itdf : List ItemRow) (sudf : List SupplierRow)
    (prdf : List PricingRow) (status : LpStatus) (ov : ℚ)
    (val : Nat × Nat → Option ℚ) :
    ∀ res, solve_model status ov val
        (create_optimization_model (prepare_data_for_optimization itdf sudf prdf)).2
        (prepare_data_for_optimization itdf sudf prdf) = some res →
      ∀ r ∈ res.1, ∃ v, val (r.ItemID, r.SupplierID) = some v ∧ 0 < v ∧
        r.UnitsOrdered = ⌊v * 24⌋ ∧
        r.TotalCost = v * r.CostPerPallet ∧
        (∀ n : ℤ, v = (n : ℚ) →
          r.UnitsOrdered = r.PalletsOrdered * 24 ∧
          r.TotalCost = (r.PalletsOrdered : ℚ) * r.CostPerPallet) := by
  set data := prepare_data_for_optimization itdf sudf prdf with hdata
  intro res hres r hr
  by_cases hst : status = LpStatus.Optimal
  case neg =>
    rw [solve_model_not_optimal status ov val _ data hst] at hres
    exact absurd hres (by simp)
  subst hst
  rw [solve_model_optimal] at hres
  cases Option.some_inj.mp hres
  obtain ⟨p, hp, s, hs, hx, v, hval, hpos, rfl⟩ :=
    (mem_extract_results data _ val r).mp hr
  have hlook : dlookupD data.items p.1 defaultItem = p.2 := by
    rw [dlookupD,
      dlookup_eq_of_mem_nodup (hdata ▸ prepare_items_keys_nodup itdf sudf prdf) hp]
    rfl
  have hupp : p.2.units_per_pallet = 24 :=
    (prepare_item_fields itdf sudf prdf p (hdata ▸ hp)).1
  have hunits : (mkPlanRow data p.1 s v).UnitsOrdered = ⌊v * 24⌋ := by
    show pyInt (v * (dlookupD data.items p.1 defaultItem).units_per_pallet) = ⌊v * 24⌋
    rw [hlook, hupp, pyInt, if_neg (not_lt.mpr (le_of_lt (by positivity)))]
  have hpallets : (mkPlanRow data p.1 s v).PalletsOrdered = ⌊v⌋ := by
    show pyInt v = ⌊v⌋
    rw [pyInt, if_neg (not_lt.mpr (le_of_lt hpos))]
  refine ⟨v, hval, hpos, hunits, rfl, ?_⟩
  rintro n rfl
  constructor
  · rw [hunits, hpallets, Int.floor_intCast,
      show ((n : ℚ) * 24) = ((n * 24 : ℤ) : ℚ) by push_cast; ring, Int.floor_intCast]
  · show (n : ℚ) * dlookupD (dlookupD data.costs p.1 []) s 0 = _
    rw [hpallets, Int.floor_intCast]
    rfl

def itdfC8W : List ItemRow := [⟨1, "A", 0, 0, 1000, 30, 1⟩]
def sudfC8W : List SupplierRow := [⟨1, "SA", 0, 50, 3⟩]
def prdfC8W : List PricingRow := [⟨1, 1, 100⟩]
def dataC8W : OptData := prepare_data_for_optimization itdfC8W sudfC8W prdfC8W
def valC8W : Nat × Nat → Option ℚ := fun k => if k = (1, 1) then some 2 else none

/-- Witness for the amended C8 at a concrete Optimal solve. -/
theorem C8_amended_line_arithmetic_witness :
    ∃ v, valC8W ((mkPlanRow dataC8W 1 1 2).ItemID, (mkPlanRow dataC8W 1 1 2).SupplierID)
        = some v ∧ 0 < v ∧
      (mkPlanRow dataC8W 1 1 2).UnitsOrdered = ⌊v * 24⌋ ∧
      (mkPlanRow dataC8W 1 1 2).TotalCost = v * (mkPlanRow dataC8W 1 1 2).CostPerPallet ∧
      (∀ n : ℤ, v = (n : ℚ) →
        (mkPlanRow dataC8W 1 1 2).UnitsOrdered = (mkPlanRow dataC8W 1 1 2).PalletsOrdered * 24 ∧
        (mkPlanRow dataC8W 1 1 2).TotalCost
          = ((mkPlanRow dataC8W 1 1 2).PalletsOrdered : ℚ)
            * (mkPlanRow dataC8W 1 1 2).CostPerPallet) :=
  C8_amended_line_arithmetic itdfC8W sudfC8W prdfC8W LpStatus.Optimal 200 valC8W
    (extract_results valC8W (create_optimization_model dataC8W).2 dataC8W, 200)
    (solve_model_optimal 200 valC8W _ dataC8W)
    (mkPlanRow dataC8W 1 1 2)
    ((mem_extract_results dataC8W _ valC8W _).mpr
      ⟨(1, mkItemData ⟨1, "A", 0, 0, 1000, 30, 1⟩),
        by
          show _ ∈ [(1, mkItemData ⟨1, "A", 0, 0, 1000, 30, 1⟩)]
          simp,
        1, by decide, by decide, 2, rfl, by norm_num, rfl⟩)

/- ## Claim C10 -/

theorem mem_keys_foldl_dictInsert {R K V : Type} [DecidableEq K]
    (f : R → K) (g : R → V) (rows : List R) (k : K) :
    k ∈ (rows.foldl (fun c r => dictInsert c (f r) (g r)) []).map Prod.fst ↔
      k ∈ rows.map f := by
  rw [keys_foldl_dictInsert]
  rw [show (([] : List (K × V)).map Prod.fst) = [] from rfl, ← List.foldl_map]
  exact (mem_insFold (rows.map f) [] k).trans (by simp)

/-- C10. The prepared data never sends the model builder to a missing key:
every item key has an (possibly empty) entry in `available_suppliers` and in
`costs`, every listed supplier of an item has a cost entry for that item, and
— provided every SupplierID of the pricing table occurs in the supplier
table — every dictionary lookup `create_optimization_model` performs
succeeds. -/
theorem C10_prepared_lookups (itdf : List ItemRow) (sudf : List SupplierRow)
    (prdf : List PricingRow) :
    (∀ p ∈ (prepare_data_for_optimization itdf sudf prdf).items,
      (dlookup (prepare_data_for_optimization itdf sudf prdf).available_suppliers p.1).isSome
        = true ∧
      (dlookup (prepare_data_for_optimization itdf sudf prdf).costs p.1).isSome = true ∧
      ∀ s ∈ dlookupD (prepare_data_for_optimization itdf sudf prdf).available_suppliers p.1 [],
        (dlookup (dlookupD (prepare_data_for_optimization itdf sudf prdf).costs p.1 []) s).isSome
          = true) ∧
    ((∀ r ∈ prdf, r.SupplierID ∈ sudf.map SupplierRow.SupplierID) →
      allLookupsOk (prepare_data_for_optimization itdf sudf prdf)) := by
  set data := prepare_data_for_optimization itdf sudf prdf with hdata
  have hkeys_avail : data.available_suppliers.map Prod.fst = data.items.map Prod.fst := by
    rw [hdata, prepare_avail_eq]
    simp
  have hkeys_costs : data.costs.map Prod.fst = data.items.map Prod.fst := by
    rw [hdata, prepare_costs_eq]
    simp
  have hpart1 : ∀ p ∈ data.items,
      (dlookup data.available_suppliers p.1).isSome = true ∧
      (dlookup data.costs p.1).isSome = true ∧
      ∀ s ∈ dlookupD data.available_suppliers p.1 [],
        (dlookup (dlookupD data.costs p.1 []) s).isSome = true := by
    intro p hp
    have hi : p.1 ∈ data.items.map Prod.fst := List.mem_map_of_mem _ hp
    refine ⟨(dlookup_isSome_iff _ _).mpr (hkeys_avail ▸ hi),
      (dlookup_isSome_iff _ _).mpr (hkeys_costs ▸ hi), ?_⟩
    intro s hs
    rw [hdata, prepare_avail_eq_costs_keys] at hs
    exact (dlookup_isSome_iff _ _).mpr hs
  refine ⟨hpart1, ?_⟩
  intro hsup
  intro p hp
  refine ⟨(hpart1 p hp).1, (hpart1 p hp).2.1, ?_⟩
  intro s hs
  refine ⟨(hpart1 p hp).2.2 s hs, ?_⟩
  have hi : p.1 ∈ data.items.map Prod.fst := List.mem_map_of_mem _ hp
  rw [hdata, prepare_avail_lookup, if_pos (hdata ▸ hi)] at hs
  rw [availFor, mem_uniqueList] at hs
  obtain ⟨row, hrow, rfl⟩ := List.mem_map.mp hs
  have hrowp : row ∈ prdf := List.mem_of_mem_filter hrow
  have hsid := hsup row hrowp
  rw [dlookup_isSome_iff, hdata, prepare_suppliers_def]
  exact (mem_keys_foldl_dictInsert (fun r => r.SupplierID) mkSupplierData sudf _).mpr hsid

def itdfC10W : List ItemRow := [⟨1, "A", 5, 0, 100, 10, 1⟩]
def sudfC10W : List SupplierRow := [⟨1, "SA", 0, 50, 3⟩]
def prdfC10W : List PricingRow := [⟨1, 1, 100⟩]

/-- Witness for C10: at a concrete table set whose pricing suppliers all
occur in the supplier table, every builder lookup succeeds. -/
theorem C10_prepared_lookups_witness :
    allLookupsOk (prepare_data_for_optimization itdfC10W sudfC10W prdfC10W) :=
  (C10_prepared_lookups itdfC10W sudfC10W prdfC10W).2 (by decide)

end StockPurchasing
